import Mathlib

/-!
# Verification of the MySensorsTracker gateway session engine

Shallow embedding of the core of `app.py` (gateway line processing: strip,
dedup, decode, dispatch) and `ota_firmware.py` (OTA firmware catalog and
per-node update state machine), with theorems checking the natural-language
specification against it.

Conventions of the embedding:
* Python byte strings are `List Nat` (each element a byte value 0..255);
  Python text strings are `List Char`.
* Python dicts used as partial maps are functions into `Option`.
* Machine integers are `Nat`/`Int`; Python `int(...)` parsing and decimal
  formatting are modelled explicitly.
* Fallible operations return `Option`; the one place where an exception
  escapes to a `sys.exit(1)` handler is modelled as an explicit outcome
  constructor (`GwOutcome.procExit`).
-/

set_option maxRecDepth 100000

namespace MySensorsTracker

/-! ## Hex codec (`binascii.hexlify` / `unhexlify`, `struct` pack/unpack of `<kH`) -/

/-- Value of a single hex digit character as accepted by `binascii.unhexlify`
(both lower and upper case). -/
def hexVal (c : Char) : Option Nat :=
  if '0' ≤ c ∧ c ≤ '9' then some (c.toNat - 48)
  else if 'a' ≤ c ∧ c ≤ 'f' then some (c.toNat - 87)
  else if 'A' ≤ c ∧ c ≤ 'F' then some (c.toNat - 55)
  else none

/-- `binascii.unhexlify`: a hex string of even length becomes a byte list;
odd length or a non-hex character raises (here: `none`). -/
def unhexlify : List Char → Option (List Nat)
  | [] => some []
  | [_] => none
  | c1 :: c2 :: rest =>
    match hexVal c1, hexVal c2, unhexlify rest with
    | some h, some l, some bs => some ((16 * h + l) :: bs)
    | _, _, _ => none

/-- Lower-case hex digit for a value `0..15` (`binascii.hexlify` output). -/
def hexDigit (n : Nat) : Char :=
  if n < 10 then Char.ofNat (48 + n) else Char.ofNat (87 + n)

/-- Two lower-case hex characters of one byte. -/
def byteToHex (b : Nat) : List Char :=
  [hexDigit (b / 16), hexDigit (b % 16)]

/-- `binascii.hexlify(bytes).decode()`: bytes to lower-case hex characters. -/
def hexlify (bs : List Nat) : List Char :=
  (bs.map byteToHex).flatten

/-- `struct.unpack("<kH", ...)` step: group bytes as little-endian 16-bit
words; fails on an odd byte count. -/
def wordsOfBytesLE : List Nat → Option (List Nat)
  | [] => some []
  | [_] => none
  | b0 :: b1 :: rest =>
    match wordsOfBytesLE rest with
    | some ws => some ((b0 + 256 * b1) :: ws)
    | none => none

/-- `fw_hex_to_int(hex_str, words)` from `ota_firmware.py`: unhexlify then
unpack exactly `words` little-endian unsigned 16-bit words.  Any of the
underlying exceptions (bad hex, odd length, wrong byte count for the struct
format) yields `none`. -/
def fw_hex_to_int (s : List Char) (words : Nat) : Option (List Nat) :=
  match unhexlify s with
  | none => none
  | some bs => if bs.length = 2 * words then wordsOfBytesLE bs else none

/-- Little-endian bytes of one 16-bit word as packed by `struct.pack("<H", w)`.
`struct.pack` raises for `w ≥ 2^16`; every call site in this repository
passes values below `2^16`, on which domain this total model agrees. -/
def wordToBytesLE (w : Nat) : List Nat :=
  [w % 256, w / 256 % 256]

/-- `fw_int_to_hex(*args)` from `ota_firmware.py`: pack the given integers as
little-endian unsigned 16-bit words and hexlify. -/
def fw_int_to_hex (ws : List Nat) : List Char :=
  hexlify ((ws.map wordToBytesLE).flatten)

/-! ## CRC16 and firmware preparation (`ota_firmware.py`) -/

/-- One shift step of the reflected CRC16-MODBUS algorithm
(polynomial `0xA001`, the bit-reversed `0x8005`). -/
def crc16Round (crc : Nat) : Nat :=
  if crc % 2 = 1 then (crc / 2) ^^^ 0xA001 else crc / 2

/-- Absorb one byte into a CRC16-MODBUS accumulator: xor the byte in, then
eight shift steps. -/
def crc16Byte (crc b : Nat) : Nat :=
  crc16Round^[8] (crc ^^^ b)

/-- `compute_crc16(data)`: the predefined `crcmod` function for `modbus`
(initial value `0xFFFF`, reflected polynomial `0xA001`, no final xor). -/
def compute_crc16 (data : List Nat) : Nat :=
  data.foldl crc16Byte 0xFFFF

/-- `FIRMWARE_BLOCK_SIZE` from `ota_firmware.py`. -/
def FIRMWARE_BLOCK_SIZE : Nat := 16

/-- The firmware dict built by `prepare_firmware`. -/
structure Fware where
  blocks : Nat
  crc : Nat
  data : List Nat
  deriving Repr, DecidableEq

/-- `prepare_firmware(bin_string)`: append `128 - len % 128` bytes of `0xFF`
(note: a full extra page when the length is already a multiple of 128), then
record block count `len/16` and the CRC16 of the padded buffer.
`blocks` uses Python float division `int(len/16)`, which equals `len / 16`
here because the padded length is a multiple of 128 and hence of 16. -/
def prepare_firmware (bin_string : List Nat) : Fware :=
  let padded := bin_string ++ List.replicate (128 - bin_string.length % 128) 0xFF
  { blocks := padded.length / FIRMWARE_BLOCK_SIZE
    crc := compute_crc16 padded
    data := padded }

/-! ## OTA Firmware Manager state and operations -/

/-- Catalog key `(fw_type, fw_ver)`. -/
abbrev FwId := Nat × Nat

/-- Python `a or b` on two dict lookups: both phase maps store tuples, which
are always truthy, so this is exactly `Option` fallback. -/
def pyOr {α : Type} (a b : Option α) : Option α :=
  match a with
  | some x => some x
  | none => b

/-- Insert into a dict modelled as a partial map. -/
def mapInsert {α β : Type} [DecidableEq α] (m : α → Option β) (k : α) (v : β) :
    α → Option β :=
  fun x => if x = k then some v else m x

/-- `dict.pop(k, None)` / `del` on a dict modelled as a partial map. -/
def mapRemove {α β : Type} [DecidableEq α] (m : α → Option β) (k : α) :
    α → Option β :=
  fun x => if x = k then none else m x

/-- The mutable state of `OTAFirmwareManager.__init__`: the firmware store
and the three per-phase node dicts. -/
structure OtaState where
  firmware_store : FwId → Option Fware
  requested_nodes : Nat → Option FwId
  unstarted_nodes : Nat → Option FwId
  started_nodes : Nat → Option FwId

/-- The freshly constructed manager: all four dicts empty. -/
def OtaState.initial : OtaState :=
  { firmware_store := fun _ => none
    requested_nodes := fun _ => none
    unstarted_nodes := fun _ => none
    started_nodes := fun _ => none }

/-- `OTAFirmwareManager.load_firmware` after the file was read and prepared:
store the prepared firmware under `(fw_type, fw_ver)`.  (File IO and the
`int(...)` argument conversion are outside the embedding; arguments are
already integers and the binary image is given directly.) -/
def OtaState.load_firmware (s : OtaState) (fw_type fw_ver : Nat)
    (bin_string : List Nat) : OtaState :=
  { s with firmware_store :=
      mapInsert s.firmware_store (fw_type, fw_ver) (prepare_firmware bin_string) }

/-- `OTAFirmwareManager.delete_firmware`: remove the catalog entry if present;
the three node dicts are not touched. -/
def OtaState.delete_firmware (s : OtaState) (fw_type fw_ver : Nat) : OtaState :=
  if (s.firmware_store (fw_type, fw_ver)).isSome then
    { s with firmware_store := mapRemove s.firmware_store (fw_type, fw_ver) }
  else s

/-- `OTAFirmwareManager.request_update`: fail (returning `false`) when the
firmware is not in the store; otherwise drop the node from the unstarted and
started dicts and record it as requested. -/
def OtaState.request_update (s : OtaState) (node_id fw_type fw_ver : Nat) :
    Bool × OtaState :=
  if (s.firmware_store (fw_type, fw_ver)).isNone then (false, s)
  else
    (true,
     { s with
        unstarted_nodes := mapRemove s.unstarted_nodes node_id
        started_nodes := mapRemove s.started_nodes node_id
        requested_nodes := mapInsert s.requested_nodes node_id (fw_type, fw_ver) })

/-- `OTAFirmwareManager.handle_firmware_config_request`: decode 5 words
(failure: no response, no state change); look the node up in requested then
unstarted; resolve the stored target in the firmware store (missing: no
response, no state change); on success move the node Requested→Unstarted and
answer with `(fw_type, fw_ver, blocks, crc)`. -/
def OtaState.handle_firmware_config_request (s : OtaState) (node_id : Nat)
    (payload : List Char) : Option (List Char) × OtaState :=
  match fw_hex_to_int payload 5 with
  | none => (none, s)
  | some _ =>
    match pyOr (s.requested_nodes node_id) (s.unstarted_nodes node_id) with
    | none => (none, s)
    | some fwId =>
      match s.firmware_store fwId with
      | none => (none, s)
      | some fware =>
        (some (fw_int_to_hex [fwId.1, fwId.2, fware.blocks, fware.crc]),
         { s with
            requested_nodes := mapRemove s.requested_nodes node_id
            unstarted_nodes := mapInsert s.unstarted_nodes node_id fwId })

/-- `OTAFirmwareManager.handle_firmware_request`: decode 3 words (failure: no
response, no state change); the node must be in unstarted or started; the
image is resolved by the node-declared `(req_fw_type, req_fw_ver)` — the
source comment says `# Use requested version` — not by the stored target
(missing: no response, no state change); on success move the node to started
and answer with the 3 words followed by the hex of
`data[block*16 : block*16+16]` (a short or empty slice out of range). -/
def OtaState.handle_firmware_request (s : OtaState) (node_id : Nat)
    (payload : List Char) : Option (List Char) × OtaState :=
  match fw_hex_to_int payload 3 with
  | some (req_fw_type :: req_fw_ver :: req_block :: _) =>
    match pyOr (s.unstarted_nodes node_id) (s.started_nodes node_id) with
    | none => (none, s)
    | some _ =>
      match s.firmware_store (req_fw_type, req_fw_ver) with
      | none => (none, s)
      | some fware =>
        let start := req_block * FIRMWARE_BLOCK_SIZE
        let blk_data := (fware.data.drop start).take FIRMWARE_BLOCK_SIZE
        (some (fw_int_to_hex [req_fw_type, req_fw_ver, req_block] ++ hexlify blk_data),
         { s with
            unstarted_nodes := mapRemove s.unstarted_nodes node_id
            started_nodes := mapInsert s.started_nodes node_id (req_fw_type, req_fw_ver) })
  | _ => (none, s)

/-- `OTAFirmwareManager.is_reboot_required`: true iff the node is requested. -/
def OtaState.is_reboot_required (s : OtaState) (node_id : Nat) : Bool :=
  (s.requested_nodes node_id).isSome

/-! ## Gateway wire codec (`app.py`) -/

/-- Whitespace as stripped by Python `str.strip()`. -/
def pyIsSpace (c : Char) : Bool :=
  c = ' ' ∨ c = '\t' ∨ c = '\n' ∨ c = '\x0d' ∨ c = '\x0b' ∨ c = '\x0c'

/-- Python `line.strip()`: drop leading and trailing whitespace. -/
def pyStrip (cs : List Char) : List Char :=
  ((cs.dropWhile pyIsSpace).reverse.dropWhile pyIsSpace).reverse

/-- Python `line.split(';')`: split on every `';'`; adjacent delimiters give
empty fields, and the result is never empty. -/
def splitOnSemi : List Char → List (List Char)
  | [] => [[]]
  | c :: cs =>
    if c = ';' then [] :: splitOnSemi cs
    else
      match splitOnSemi cs with
      | [] => [[c]]
      | p :: ps => (c :: p) :: ps

/-- Value of a nonempty decimal digit run (most significant digit first). -/
def digitsToNat (cs : List Char) : Nat :=
  cs.foldl (fun a c => 10 * a + (c.toNat - 48)) 0

/-- Python `int(str)` on the strings this program feeds it: an optional
single sign followed by a nonempty run of ASCII digits; anything else raises
`ValueError` (here: `none`).  (Python additionally tolerates surrounding
whitespace, underscores between digits and unicode digits; those inputs do
not occur in the behaviours verified here.) -/
def parsePyInt (cs : List Char) : Option Int :=
  match cs with
  | [] => none
  | c :: rest =>
    if c = '-' then
      if rest ≠ [] ∧ rest.all Char.isDigit then some (-(digitsToNat rest : Int)) else none
    else if c = '+' then
      if rest ≠ [] ∧ rest.all Char.isDigit then some ((digitsToNat rest : Int)) else none
    else if (c :: rest).all Char.isDigit then some ((digitsToNat (c :: rest) : Int))
    else none

/-- Decimal digits of a natural number, as produced by Python `str(n)`. -/
def printNat (n : Nat) : List Char :=
  if n = 0 then ['0']
  else ((Nat.digits 10 n).reverse.map fun d => Char.ofNat (48 + d))

/-- Python `str(i)` for an integer: a minus sign for negatives. -/
def printInt (i : Int) : List Char :=
  if i < 0 then '-' :: printNat i.natAbs else printNat i.toNat

/-- The f-string of `send_custom_message` (`app.py`):
`f"{node_id};{child_id};{command};{ack};{msg_type};{payload}"`. -/
def encodeLine (node_id child_id command ack msg_type : Int)
    (payload : List Char) : List Char :=
  printInt node_id ++ ';' :: (printInt child_id ++ ';' :: (printInt command ++
    ';' :: (printInt ack ++ ';' :: (printInt msg_type ++ ';' :: payload))))

/-- Result of the parsing portion of `process_gateway_message`. -/
inductive ParseResult where
  | tooShort
  | badInt
  | ok (nid cid cmd ack typ : Int) (payload : List Char)
  deriving Repr, DecidableEq

/-- The field extraction of `process_gateway_message` (`app.py` lines
796–806): split on `';'`; fewer than 6 fields is rejected with a warning;
otherwise the first five fields go through `int(...)` — a failure there
raises `ValueError` (`badInt`) — and the payload is `parts[5]`, the sixth
field only. -/
def parseGatewayLine (line : List Char) : ParseResult :=
  match splitOnSemi line with
  | p0 :: p1 :: p2 :: p3 :: p4 :: p5 :: _ =>
    match parsePyInt p0, parsePyInt p1, parsePyInt p2, parsePyInt p3, parsePyInt p4 with
    | some nid, some cid, some cmd, some ack, some typ => .ok nid cid cmd ack typ p5
    | _, _, _, _, _ => .badInt
  | _ => .tooShort

/-- The successful decode of a gateway line, as a codec: the 5 integer fields
and the payload field. -/
def decodeLine (line : List Char) :
    Option (Int × Int × Int × Int × Int × List Char) :=
  match parseGatewayLine line with
  | .ok nid cid cmd ack typ payload => some (nid, cid, cmd, ack, typ, payload)
  | _ => none

/-! ## `process_gateway_message` control flow (`app.py`) -/

/-- The globals `last_message` / `last_time` used by the dedup check. -/
structure GwState where
  last_message : List Char
  last_time : ℚ
  deriving DecidableEq

/-- What one call of `process_gateway_message` does with a line:
* `droppedEmpty` — blank after strip, returned before the dedup state update;
* `droppedDup` — identical to the previous line and within 1 second of it,
  returned before the split (no decode, no event);
* `droppedInvalid` — fewer than 6 fields, logged as invalid and dropped;
* `procExit` — a field failed `int(...)`: the `ValueError` propagates to the
  `except Exception` handler at the end of the function, which calls
  `sys.exit(1)`, terminating the receive loop;
* `event ...` — the decoded message is recorded and dispatched. -/
inductive GwOutcome where
  | droppedEmpty
  | droppedDup
  | droppedInvalid
  | procExit
  | event (nid cid cmd ack typ : Int) (payload : List Char)
  deriving Repr, DecidableEq

/-- `process_gateway_message(line)` (`app.py` lines 775–867), up to and
including the decode; wall-clock time is an explicit argument, the globals
are explicit state.  The dedup state is updated for every non-blank line,
duplicates included, exactly as in the source. -/
def process_gateway_message (st : GwState) (rawLine : List Char) (now : ℚ) :
    GwOutcome × GwState :=
  let line := pyStrip rawLine
  if line = [] then (.droppedEmpty, st)
  else
    let st' : GwState := { last_message := line, last_time := now }
    if line = st.last_message ∧ ¬ (now - st.last_time > 1) then (.droppedDup, st')
    else
      match parseGatewayLine line with
      | .tooShort => (.droppedInvalid, st')
      | .badInt => (.procExit, st')
      | .ok nid cid cmd ack typ payload => (.event nid cid cmd ack typ payload, st')

/-- Classifies the outcomes in which a line passed the blank and dedup checks
and reached the field decoder. -/
def GwOutcome.reachedDecode : GwOutcome → Bool
  | .droppedEmpty => false
  | .droppedDup => false
  | _ => true

/-! ## Reachability of manager states by protocol-driven calls -/

/-- One call of the three operations of the claim: operator `request_update`,
inbound `handle_firmware_config_request`, inbound `handle_firmware_request`. -/
inductive OtaStep where
  | req (node_id fw_type fw_ver : Nat)
  | config (node_id : Nat) (payload : List Char)
  | block (node_id : Nat) (payload : List Char)

/-- Apply one call, keeping only the state (responses/results discarded). -/
def applyOtaStep (s : OtaState) : OtaStep → OtaState
  | .req n t v => (s.request_update n t v).2
  | .config n p => (s.handle_firmware_config_request n p).2
  | .block n p => (s.handle_firmware_request n p).2

/-- Run a sequence of calls from a starting state. -/
def runOtaSteps (s : OtaState) (steps : List OtaStep) : OtaState :=
  steps.foldl applyOtaStep s

/-- All three phase dicts are empty (the registry of a fresh manager; the
firmware store may hold anything). -/
def registryEmpty (s : OtaState) : Prop :=
  ∀ n, s.requested_nodes n = none ∧ s.unstarted_nodes n = none ∧
    s.started_nodes n = none

/-- Each node is in at most one of the three phase dicts, i.e. in exactly one
of no-entry / Requested / Unstarted / Started. -/
def phaseDisjoint (s : OtaState) : Prop :=
  ∀ n, (s.requested_nodes n).isSome.toNat + (s.unstarted_nodes n).isSome.toNat +
    (s.started_nodes n).isSome.toNat ≤ 1

/-- The state produced by a successful `request_update`: the node is dropped
from the unstarted and started dicts and recorded as requested. -/
def afterRequest (s : OtaState) (node t v : Nat) : OtaState :=
  { s with
      unstarted_nodes := mapRemove s.unstarted_nodes node
      started_nodes := mapRemove s.started_nodes node
      requested_nodes := mapInsert s.requested_nodes node (t, v) }

/-! ## Concrete example data -/

/-- A 320-byte all-zero binary firmware image. -/
def exampleImage : List Nat := List.replicate 320 0

/-- A manager state with the example image loaded as firmware `(3, 2)`. -/
def exampleStore : OtaState := OtaState.initial.load_firmware 3 2 exampleImage

/-- A well-formed 5-word config-request payload (20 hex characters), as a
bootloader would send: current type 1, version 1, 10 blocks, CRC 0,
bootloader version 2. -/
def exampleConfigPayload : List Char := fw_int_to_hex [1, 1, 10, 0, 2]

/-- A well-formed 3-word block-request payload declaring firmware `(3, 2)`,
block 0. -/
def exampleBlockPayload : List Char := fw_int_to_hex [3, 2, 0]

/-- A well-formed 3-word block-request payload declaring firmware `(5, 5)`,
block 0. -/
def exampleBlockPayloadMissing : List Char := fw_int_to_hex [5, 5, 0]

/-- A state whose node 1 is Requested for target `(5, 5)`, which is absent
from the (empty) catalog. -/
def staleRequested : OtaState :=
  { OtaState.initial with
      requested_nodes := mapInsert OtaState.initial.requested_nodes 1 (5, 5) }

/-- A state whose node 1 is Unstarted for target `(5, 5)`, which is absent
from the (empty) catalog. -/
def staleUnstarted : OtaState :=
  { OtaState.initial with
      unstarted_nodes := mapInsert OtaState.initial.unstarted_nodes 1 (5, 5) }

/-- The example store with node 1 Unstarted and stored target `(5, 5)`
(differing from what the node will declare in its block request). -/
def exampleUnstartedMismatch : OtaState :=
  { exampleStore with
      unstarted_nodes := mapInsert exampleStore.unstarted_nodes 1 (5, 5) }

/-! ## Helper lemmas: the decimal codec round-trips -/

theorem toNat_digitChar {d : Nat} (h : d < 10) :
    (Char.ofNat (48 + d)).toNat = 48 + d := by
  interval_cases d <;> decide

theorem isDigit_digitChar {d : Nat} (h : d < 10) :
    (Char.ofNat (48 + d)).isDigit = true := by
  interval_cases d <;> decide

theorem digitChar_ne_semi {d : Nat} (h : d < 10) : Char.ofNat (48 + d) ≠ ';' := by
  interval_cases d <;> decide

theorem printNat_all_digits (n : Nat) : (printNat n).all Char.isDigit = true := by
  unfold printNat
  split
  · decide
  · simp only [List.all_eq_true, List.mem_map, List.mem_reverse]
    rintro c ⟨d, hd, rfl⟩
    exact isDigit_digitChar (Nat.digits_lt_base (by norm_num) hd)

theorem printNat_ne_nil (n : Nat) : printNat n ≠ [] := by
  unfold printNat
  split
  · simp
  · simp only [ne_eq, List.map_eq_nil_iff, List.reverse_eq_nil_iff]
    next h => simpa using Nat.digits_ne_nil_iff_ne_zero.mpr h

theorem semi_not_mem_printNat (n : Nat) : ';' ∉ printNat n := by
  intro hmem
  have hall := printNat_all_digits n
  rw [List.all_eq_true] at hall
  have := hall _ hmem
  simp at this

theorem foldr_base10 (ds : List Nat) :
    ds.foldr (fun d acc => 10 * acc + d) 0 = Nat.ofDigits 10 ds := by
  induction ds with
  | nil => simp [Nat.ofDigits]
  | cons d ds ih => simp [List.foldr_cons, ih, Nat.ofDigits_cons]; ring

theorem foldr_digitChars (ds : List Nat) (h : ∀ d ∈ ds, d < 10) :
    ds.foldr (fun x y => 10 * y + ((Char.ofNat (48 + x)).toNat - 48)) 0 =
    ds.foldr (fun d acc => 10 * acc + d) 0 := by
  induction ds with
  | nil => rfl
  | cons d ds ih =>
    have hd : d < 10 := h d (by simp)
    simp only [List.foldr_cons, ih (fun x hx => h x (by simp [hx])),
      toNat_digitChar hd]
    omega

theorem digitsToNat_printNat (n : Nat) : digitsToNat (printNat n) = n := by
  unfold printNat digitsToNat
  split
  · next h => subst h; decide
  · rw [List.foldl_map, List.foldl_reverse]
    rw [foldr_digitChars _ (fun d hd => Nat.digits_lt_base (by norm_num) hd)]
    rw [foldr_base10]
    exact Nat.ofDigits_digits 10 n

theorem parsePyInt_digits {cs : List Char} (hne : cs ≠ [])
    (hall : cs.all Char.isDigit = true) :
    parsePyInt cs = some ((digitsToNat cs : Int)) := by
  match cs with
  | [] => exact absurd rfl hne
  | c :: rest =>
    have hc : c.isDigit = true := by
      rw [List.all_eq_true] at hall
      exact hall c (by simp)
    have hc1 : c ≠ '-' := fun h => by subst h; simp at hc
    have hc2 : c ≠ '+' := fun h => by subst h; simp at hc
    simp [parsePyInt, hc1, hc2, hall]

theorem parsePyInt_printNat (n : Nat) :
    parsePyInt (printNat n) = some ((n : Int)) := by
  rw [parsePyInt_digits (printNat_ne_nil n) (printNat_all_digits n),
    digitsToNat_printNat]

theorem parsePyInt_printInt (i : Int) : parsePyInt (printInt i) = some i := by
  unfold printInt
  split
  · next h =>
    have hne := printNat_ne_nil i.natAbs
    have hall := printNat_all_digits i.natAbs
    have hmatch : parsePyInt ('-' :: printNat i.natAbs) =
        some (-(digitsToNat (printNat i.natAbs) : Int)) := by
      simp [parsePyInt, hne, hall]
    rw [hmatch, digitsToNat_printNat]
    congr 1
    omega
  · next h =>
    rw [parsePyInt_printNat]
    congr 1
    omega

theorem semi_not_mem_printInt (i : Int) : ';' ∉ printInt i := by
  unfold printInt
  split
  · intro hmem
    rcases List.mem_cons.mp hmem with h | h
    · exact absurd h.symm (by decide)
    · exact semi_not_mem_printNat _ h
  · exact semi_not_mem_printNat _

/-! ## Helper lemmas: `str.split(';')` -/

theorem splitOnSemi_ne_nil : ∀ cs : List Char, splitOnSemi cs ≠ []
  | [] => by simp [splitOnSemi]
  | c :: cs => by
    simp only [splitOnSemi]
    split
    · simp
    · split <;> simp

theorem splitOnSemi_no_semi {cs : List Char} (h : ';' ∉ cs) :
    splitOnSemi cs = [cs] := by
  induction cs with
  | nil => rfl
  | cons c cs ih =>
    have hc : ¬ (c = ';') := fun hc => h (by simp [hc])
    have hrest : ';' ∉ cs := fun hm => h (by simp [hm])
    simp only [splitOnSemi, if_neg hc, ih hrest]

theorem splitOnSemi_append {xs : List Char} (ys : List Char) (h : ';' ∉ xs) :
    splitOnSemi (xs ++ ';' :: ys) = xs :: splitOnSemi ys := by
  induction xs with
  | nil => simp [splitOnSemi]
  | cons c cs ih =>
    have hc : ¬ (c = ';') := fun hc => h (by simp [hc])
    have hrest : ';' ∉ cs := fun hm => h (by simp [hm])
    simp only [List.cons_append, splitOnSemi, if_neg hc, List.append_eq, ih hrest]

theorem decodeLine_encodeLine (n c m a t : Int) {p : List Char} (hp : ';' ∉ p) :
    decodeLine (encodeLine n c m a t p) = some (n, c, m, a, t, p) := by
  unfold decodeLine parseGatewayLine encodeLine
  rw [splitOnSemi_append _ (semi_not_mem_printInt n),
    splitOnSemi_append _ (semi_not_mem_printInt c),
    splitOnSemi_append _ (semi_not_mem_printInt m),
    splitOnSemi_append _ (semi_not_mem_printInt a),
    splitOnSemi_append _ (semi_not_mem_printInt t),
    splitOnSemi_no_semi hp]
  simp [parsePyInt_printInt]

/-! ## Helper lemmas: dedup behaviour of `process_gateway_message` -/

theorem process_gateway_message_snd {raw : List Char} (st : GwState) (now : ℚ)
    (h : pyStrip raw ≠ []) :
    (process_gateway_message st raw now).2 =
      { last_message := pyStrip raw, last_time := now } := by
  unfold process_gateway_message
  simp only [if_neg h]
  split
  · rfl
  · split <;> rfl

theorem process_gateway_message_dup {raw : List Char} (st : GwState) (now : ℚ)
    (h1 : pyStrip raw ≠ []) (h2 : pyStrip raw = st.last_message)
    (h3 : now - st.last_time ≤ 1) :
    (process_gateway_message st raw now).1 = .droppedDup := by
  unfold process_gateway_message
  simp only [if_neg h1]
  rw [if_pos ⟨h2, not_lt.mpr h3⟩]

theorem process_gateway_message_not_dup {raw : List Char} (st : GwState) (now : ℚ)
    (h1 : pyStrip raw ≠ [])
    (h2 : pyStrip raw ≠ st.last_message ∨ now - st.last_time > 1) :
    (process_gateway_message st raw now).1.reachedDecode = true := by
  unfold process_gateway_message
  simp only [if_neg h1]
  have hcond : ¬ (pyStrip raw = st.last_message ∧ ¬ (now - st.last_time > 1)) := by
    rcases h2 with h | h
    · exact fun hc => h hc.1
    · exact fun hc => hc.2 h
  rw [if_neg hcond]
  split <;> rfl

/-! ## Helper lemmas: the 16-bit word hex codec round-trips -/

theorem hexVal_hexDigit {n : Nat} (h : n < 16) : hexVal (hexDigit n) = some n := by
  interval_cases n <;> decide

theorem unhexlify_byteToHex_cons (b : Nat) (hb : b < 256) (s : List Char) :
    unhexlify (byteToHex b ++ s) = (unhexlify s).map (b :: ·) := by
  have h1 : b / 16 < 16 := by omega
  have h2 : b % 16 < 16 := by omega
  simp only [byteToHex, List.cons_append, List.nil_append, unhexlify,
    hexVal_hexDigit h1, hexVal_hexDigit h2]
  have hb' : 16 * (b / 16) + b % 16 = b := by omega
  cases hu : unhexlify s <;> simp [hu, hb']

theorem unhexlify_hexlify {bs : List Nat} (h : ∀ b ∈ bs, b < 256) :
    unhexlify (hexlify bs) = some bs := by
  induction bs with
  | nil => rfl
  | cons b bs ih =>
    have hb : b < 256 := h b (List.mem_cons_self b bs)
    have hrest : ∀ x ∈ bs, x < 256 := fun x hx => h x (List.mem_cons_of_mem b hx)
    simp only [hexlify, List.map_cons, List.flatten_cons]
    rw [unhexlify_byteToHex_cons b hb]
    rw [show (bs.map byteToHex).flatten = hexlify bs from rfl, ih hrest]
    rfl

theorem wordsOfBytesLE_pack {ws : List Nat} (h : ∀ w ∈ ws, w < 65536) :
    wordsOfBytesLE ((ws.map wordToBytesLE).flatten) = some ws := by
  induction ws with
  | nil => rfl
  | cons w ws ih =>
    have hw : w < 65536 := h w (List.mem_cons_self w ws)
    have hrest : ∀ x ∈ ws, x < 65536 := fun x hx => h x (List.mem_cons_of_mem w hx)
    simp only [List.map_cons, List.flatten_cons, wordToBytesLE, List.cons_append,
      List.nil_append, wordsOfBytesLE, List.append_eq]
    rw [ih hrest]
    have : w % 256 + 256 * (w / 256 % 256) = w := by omega
    simp [this]

theorem flatten_wordBytes_length (ws : List Nat) :
    ((ws.map wordToBytesLE).flatten).length = 2 * ws.length := by
  induction ws with
  | nil => rfl
  | cons w ws ih =>
    simp only [List.map_cons, List.flatten_cons, List.length_append, ih]
    simp [wordToBytesLE]
    omega

theorem wordBytes_lt (ws : List Nat) :
    ∀ b ∈ (ws.map wordToBytesLE).flatten, b < 256 := by
  intro b hb
  rw [List.mem_flatten] at hb
  obtain ⟨l, hl, hbl⟩ := hb
  rw [List.mem_map] at hl
  obtain ⟨w, _, rfl⟩ := hl
  simp only [wordToBytesLE, List.mem_cons, List.mem_singleton] at hbl
  rcases hbl with rfl | rfl | h
  · omega
  · omega
  · simp at h

/-- `fw_hex_to_int` decodes what `fw_int_to_hex` encoded, for in-range
16-bit words. -/
theorem fw_hex_to_int_fw_int_to_hex {ws : List Nat} (h : ∀ w ∈ ws, w < 65536) :
    fw_hex_to_int (fw_int_to_hex ws) ws.length = some ws := by
  unfold fw_hex_to_int fw_int_to_hex
  rw [unhexlify_hexlify (wordBytes_lt ws)]
  show (if ((ws.map wordToBytesLE).flatten).length = 2 * ws.length then
      wordsOfBytesLE ((ws.map wordToBytesLE).flatten) else none) = some ws
  rw [flatten_wordBytes_length]
  simp [wordsOfBytesLE_pack h]

/-! ## Helper lemmas: CRC16 stays below `2^16` -/

theorem crc16Round_lt {crc : Nat} (h : crc < 65536) : crc16Round crc < 65536 := by
  unfold crc16Round
  split
  · have h1 : crc / 2 < 2 ^ 16 := by omega
    have h2 : (0xA001 : Nat) < 2 ^ 16 := by norm_num
    have := Nat.xor_lt_two_pow h1 h2
    simpa using this
  · omega

theorem crc16Round_iter_lt {crc : Nat} (h : crc < 65536) (k : Nat) :
    crc16Round^[k] crc < 65536 := by
  induction k generalizing crc with
  | zero => simpa using h
  | succ k ih =>
    rw [Function.iterate_succ_apply]
    exact ih (crc16Round_lt h)

theorem crc16Byte_lt {crc b : Nat} (hc : crc < 65536) (hb : b < 65536) :
    crc16Byte crc b < 65536 := by
  unfold crc16Byte
  have h1 : crc < 2 ^ 16 := by omega
  have h2 : b < 2 ^ 16 := by omega
  have := Nat.xor_lt_two_pow h1 h2
  exact crc16Round_iter_lt (by omega) 8

theorem foldl_crc16Byte_lt (data : List Nat) :
    ∀ crc, crc < 65536 → (∀ b ∈ data, b < 65536) →
      data.foldl crc16Byte crc < 65536 := by
  induction data with
  | nil => intro crc hc _; simpa using hc
  | cons b bs ih =>
    intro crc hc hall
    simp only [List.foldl_cons]
    exact ih _ (crc16Byte_lt hc (hall b (List.mem_cons_self b bs)))
      (fun x hx => hall x (List.mem_cons_of_mem b hx))

theorem compute_crc16_lt {data : List Nat} (h : ∀ b ∈ data, b < 65536) :
    compute_crc16 data < 65536 :=
  foldl_crc16Byte_lt data 0xFFFF (by norm_num) h

/-! ## Computation lemmas for the OTA handlers, one per control-flow branch -/

theorem pyOr_eq_some_isSome {α : Type} {a b : Option α} {x : α}
    (h : pyOr a b = some x) : a.isSome = true ∨ b.isSome = true := by
  cases ha : a with
  | some y => left; simp [ha]
  | none =>
    right
    rw [ha] at h
    have hb : b = some x := h
    simp [hb]

theorem request_update_eq_success {s : OtaState} {node t v : Nat} {fware : Fware}
    (hst : s.firmware_store (t, v) = some fware) :
    s.request_update node t v = (true, afterRequest s node t v) := by
  unfold OtaState.request_update afterRequest
  simp [hst]

theorem request_update_eq_fail {s : OtaState} {node t v : Nat}
    (hst : s.firmware_store (t, v) = none) :
    s.request_update node t v = (false, s) := by
  unfold OtaState.request_update
  simp [hst]

theorem config_request_eq_invalid {s : OtaState} {n : Nat} {p : List Char}
    (h : fw_hex_to_int p 5 = none) :
    s.handle_firmware_config_request n p = (none, s) := by
  unfold OtaState.handle_firmware_config_request
  simp [h]

theorem config_request_eq_notScheduled {s : OtaState} {n : Nat} {p : List Char}
    {ws : List Nat} (hws : fw_hex_to_int p 5 = some ws)
    (hid : pyOr (s.requested_nodes n) (s.unstarted_nodes n) = none) :
    s.handle_firmware_config_request n p = (none, s) := by
  unfold OtaState.handle_firmware_config_request
  simp [hws, hid]

theorem config_request_eq_missing {s : OtaState} {n : Nat} {p : List Char}
    {ws : List Nat} {fwId : FwId} (hws : fw_hex_to_int p 5 = some ws)
    (hid : pyOr (s.requested_nodes n) (s.unstarted_nodes n) = some fwId)
    (hst : s.firmware_store fwId = none) :
    s.handle_firmware_config_request n p = (none, s) := by
  unfold OtaState.handle_firmware_config_request
  simp [hws, hid, hst]

theorem config_request_eq_success {s : OtaState} {n : Nat} {p : List Char}
    {ws : List Nat} {fwId : FwId} {fware : Fware}
    (hws : fw_hex_to_int p 5 = some ws)
    (hid : pyOr (s.requested_nodes n) (s.unstarted_nodes n) = some fwId)
    (hst : s.firmware_store fwId = some fware) :
    s.handle_firmware_config_request n p =
      (some (fw_int_to_hex [fwId.1, fwId.2, fware.blocks, fware.crc]),
       { s with
          requested_nodes := mapRemove s.requested_nodes n
          unstarted_nodes := mapInsert s.unstarted_nodes n fwId }) := by
  unfold OtaState.handle_firmware_config_request
  simp [hws, hid, hst]

theorem block_request_eq_invalid {s : OtaState} {n : Nat} {p : List Char}
    (h : fw_hex_to_int p 3 = none) :
    s.handle_firmware_request n p = (none, s) := by
  unfold OtaState.handle_firmware_request
  simp [h]

theorem block_request_eq_notInUpdate {s : OtaState} {n : Nat} {p : List Char}
    {t v b : Nat} {rest : List Nat}
    (hws : fw_hex_to_int p 3 = some (t :: v :: b :: rest))
    (hid : pyOr (s.unstarted_nodes n) (s.started_nodes n) = none) :
    s.handle_firmware_request n p = (none, s) := by
  unfold OtaState.handle_firmware_request
  simp [hws, hid]

theorem block_request_eq_missing {s : OtaState} {n : Nat} {p : List Char}
    {t v b : Nat} {rest : List Nat} {fwId : FwId}
    (hws : fw_hex_to_int p 3 = some (t :: v :: b :: rest))
    (hid : pyOr (s.unstarted_nodes n) (s.started_nodes n) = some fwId)
    (hst : s.firmware_store (t, v) = none) :
    s.handle_firmware_request n p = (none, s) := by
  unfold OtaState.handle_firmware_request
  simp [hws, hid, hst]

theorem block_request_eq_success {s : OtaState} {n : Nat} {p : List Char}
    {t v b : Nat} {rest : List Nat} {fwId : FwId} {fware : Fware}
    (hws : fw_hex_to_int p 3 = some (t :: v :: b :: rest))
    (hid : pyOr (s.unstarted_nodes n) (s.started_nodes n) = some fwId)
    (hst : s.firmware_store (t, v) = some fware) :
    s.handle_firmware_request n p =
      (some (fw_int_to_hex [t, v, b] ++
        hexlify ((fware.data.drop (b * FIRMWARE_BLOCK_SIZE)).take FIRMWARE_BLOCK_SIZE)),
       { s with
          unstarted_nodes := mapRemove s.unstarted_nodes n
          started_nodes := mapInsert s.started_nodes n (t, v) }) := by
  unfold OtaState.handle_firmware_request
  simp [hws, hid, hst]

/-! ## Helper lemmas: phase disjointness is preserved by every call -/

theorem phaseDisjoint_request_update {s : OtaState} (hd : phaseDisjoint s)
    (n t v : Nat) : phaseDisjoint (s.request_update n t v).2 := by
  unfold OtaState.request_update
  split
  · exact hd
  · intro m
    simp only [mapInsert, mapRemove]
    by_cases hm : m = n
    · simp [hm]
    · simp only [if_neg hm]
      exact hd m

theorem phaseDisjoint_config {s : OtaState} (hd : phaseDisjoint s)
    (n : Nat) (p : List Char) :
    phaseDisjoint (s.handle_firmware_config_request n p).2 := by
  cases hfw : fw_hex_to_int p 5 with
  | none => rw [config_request_eq_invalid hfw]; exact hd
  | some ws =>
    cases hid : pyOr (s.requested_nodes n) (s.unstarted_nodes n) with
    | none => rw [config_request_eq_notScheduled hfw hid]; exact hd
    | some fwId =>
      cases hst : s.firmware_store fwId with
      | none => rw [config_request_eq_missing hfw hid hst]; exact hd
      | some fware =>
        rw [config_request_eq_success hfw hid hst]
        intro m
        by_cases hm : m = n
        · subst hm
          have h1 := hd m
          rcases pyOr_eq_some_isSome hid with h | h <;>
          · simp only [mapInsert, mapRemove, if_pos rfl, if_true, eq_self_iff_true,
              Option.isSome_some, Option.isSome_none, Bool.toNat_true, Bool.toNat_false]
            rw [h] at h1
            simp only [Bool.toNat_true] at h1
            omega
        · simp only [mapInsert, mapRemove, if_neg hm]
          exact hd m

theorem phaseDisjoint_block {s : OtaState} (hd : phaseDisjoint s)
    (n : Nat) (p : List Char) :
    phaseDisjoint (s.handle_firmware_request n p).2 := by
  cases hfw : fw_hex_to_int p 3 with
  | none => rw [block_request_eq_invalid hfw]; exact hd
  | some ws =>
    match ws, hfw with
    | t :: v :: b :: rest, hfw =>
      cases hid : pyOr (s.unstarted_nodes n) (s.started_nodes n) with
      | none => rw [block_request_eq_notInUpdate hfw hid]; exact hd
      | some fwId =>
        cases hst : s.firmware_store (t, v) with
        | none => rw [block_request_eq_missing hfw hid hst]; exact hd
        | some fware =>
          rw [block_request_eq_success hfw hid hst]
          intro m
          by_cases hm : m = n
          · subst hm
            have h1 := hd m
            rcases pyOr_eq_some_isSome hid with h | h <;>
            · simp only [mapInsert, mapRemove, if_pos rfl, if_true, eq_self_iff_true,
                Option.isSome_some, Option.isSome_none, Bool.toNat_true, Bool.toNat_false]
              rw [h] at h1
              simp only [Bool.toNat_true] at h1
              omega
          · simp only [mapInsert, mapRemove, if_neg hm]
            exact hd m
    | [], hfw =>
      unfold OtaState.handle_firmware_request
      simp only [hfw]
      exact hd
    | [_], hfw =>
      unfold OtaState.handle_firmware_request
      simp only [hfw]
      exact hd
    | [_, _], hfw =>
      unfold OtaState.handle_firmware_request
      simp only [hfw]
      exact hd

theorem phaseDisjoint_applyOtaStep {s : OtaState} (hd : phaseDisjoint s)
    (st : OtaStep) : phaseDisjoint (applyOtaStep s st) := by
  cases st with
  | req n t v => exact phaseDisjoint_request_update hd n t v
  | config n p => exact phaseDisjoint_config hd n p
  | block n p => exact phaseDisjoint_block hd n p

/-! ## Claims -/

/-- **C1.** The claim says a gateway line with at least 6 `;`-separated
fields whose first five fields are not all valid integers is logged, dropped,
and the receive loop continues.  The code disagrees: the `ValueError` raised
by `int(...)` is caught by the `except Exception` handler at the end of
`process_gateway_message` (`app.py` line 864), which calls `sys.exit(1)`; the
resulting `SystemExit` is not an `Exception`, so it escapes the
`except Exception` clause of `gateway_listener` and terminates the receive
loop.  This theorem evaluates the embedded control flow at the failing input
`"x;1;1;0;2;37"`: the field extraction reports a bad integer and the
processing outcome is process exit, not a drop. -/
theorem malformed_int_fields_terminate_listener :
    parseGatewayLine ("x;1;1;0;2;37".toList) = ParseResult.badInt ∧
    (process_gateway_message { last_message := [], last_time := 0 }
      ("x;1;1;0;2;37".toList) 5).1 = GwOutcome.procExit := by
  constructor
  · decide
  · decide

/-- **C2 (counterexample).** The claim says a 320-byte image is catalogued
with `blocks = 20 = 320/16`.  In fact `prepare_firmware` pads 320 bytes up to
the next multiple of 128 — here 384 bytes — so the catalog reports
`blocks = 24`, not 20. -/
theorem blocks_of_320_byte_image_ne_20 :
    (prepare_firmware exampleImage).blocks = 24 ∧
    (prepare_firmware exampleImage).blocks ≠ 20 := by
  constructor
  · decide
  · decide

/-- **C2 (amended).** Loading a 320-byte binary image as firmware `(3, 2)`
and issuing a successful `request_update(node, 3, 2)` makes the catalog
report `blocks = 24` (the image is page-padded from 320 to 384 bytes), and
the response to a subsequent well-formed config request from that node
decodes as the four 16-bit words `(3, 2, 24, crc)` where `crc` is the stored
CRC16 of the padded image. -/
theorem config_response_for_320_byte_image
    (bin : List Nat) (hlen : bin.length = 320) (hbytes : ∀ x ∈ bin, x < 256)
    (s0 : OtaState) (node : Nat) (payload : List Char) (ws : List Nat)
    (hpl : fw_hex_to_int payload 5 = some ws) :
    ((s0.load_firmware 3 2 bin).request_update node 3 2).1 = true ∧
    (prepare_firmware bin).blocks = 24 ∧
    (((s0.load_firmware 3 2 bin).request_update node 3 2).2.handle_firmware_config_request
        node payload).1 =
      some (fw_int_to_hex [3, 2, 24, compute_crc16 (prepare_firmware bin).data]) ∧
    fw_hex_to_int
        (fw_int_to_hex [3, 2, 24, compute_crc16 (prepare_firmware bin).data]) 4 =
      some [3, 2, 24, compute_crc16 (prepare_firmware bin).data] := by
  have hstore : (s0.load_firmware 3 2 bin).firmware_store (3, 2) =
      some (prepare_firmware bin) := by
    simp [OtaState.load_firmware, mapInsert]
  have hblocks : (prepare_firmware bin).blocks = 24 := by
    simp only [prepare_firmware, FIRMWARE_BLOCK_SIZE, List.length_append,
      List.length_replicate, hlen]
  have hdata : ∀ x ∈ (prepare_firmware bin).data, x < 65536 := by
    intro x hx
    simp only [prepare_firmware] at hx
    rw [List.mem_append] at hx
    rcases hx with h | h
    · have := hbytes x h
      omega
    · have := List.eq_of_mem_replicate h
      omega
  have hcrc : compute_crc16 (prepare_firmware bin).data < 65536 := by
    have := compute_crc16_lt hdata
    simpa [prepare_firmware] using this
  have hrq : (s0.load_firmware 3 2 bin).request_update node 3 2 =
      (true, afterRequest (s0.load_firmware 3 2 bin) node 3 2) :=
    request_update_eq_success hstore
  refine ⟨by rw [hrq], hblocks, ?_, ?_⟩
  · rw [hrq]
    have hid : pyOr
        ((afterRequest (s0.load_firmware 3 2 bin) node 3 2).requested_nodes node)
        ((afterRequest (s0.load_firmware 3 2 bin) node 3 2).unstarted_nodes node) =
        some (3, 2) := by
      simp [afterRequest, mapInsert, pyOr]
    have hst1 : (afterRequest (s0.load_firmware 3 2 bin) node 3 2).firmware_store
        (3, 2) = some (prepare_firmware bin) := hstore
    rw [config_request_eq_success hpl hid hst1, hblocks]
    rfl
  · have hbound : ∀ w ∈ [3, 2, 24, compute_crc16 (prepare_firmware bin).data],
        w < 65536 := by
      intro w hw
      simp only [List.mem_cons, List.not_mem_nil, or_false] at hw
      rcases hw with rfl | rfl | rfl | rfl
      · norm_num
      · norm_num
      · norm_num
      · exact hcrc
    have := fw_hex_to_int_fw_int_to_hex hbound
    simpa using this

/-- **C2 witness.** The amended theorem applied to the concrete all-zero
320-byte image. -/
theorem config_response_for_320_byte_image_witness :
    ((OtaState.initial.load_firmware 3 2 exampleImage).request_update 7 3 2).1 = true ∧
    (prepare_firmware exampleImage).blocks = 24 ∧
    (((OtaState.initial.load_firmware 3 2 exampleImage).request_update 7 3
        2).2.handle_firmware_config_request 7 exampleConfigPayload).1 =
      some (fw_int_to_hex [3, 2, 24, compute_crc16 (prepare_firmware exampleImage).data]) ∧
    fw_hex_to_int
        (fw_int_to_hex [3, 2, 24, compute_crc16 (prepare_firmware exampleImage).data]) 4 =
      some [3, 2, 24, compute_crc16 (prepare_firmware exampleImage).data] :=
  config_response_for_320_byte_image exampleImage (by simp [exampleImage])
    (by intro x hx; simp [exampleImage, List.eq_of_mem_replicate hx])
    OtaState.initial 7 exampleConfigPayload [1, 1, 10, 0, 2] (by decide)

/-- **C3 (counterexample).** The claim says that with the target firmware
absent from the catalog the node's state still advances past
Requested/Unstarted.  In the code both handlers return before any state
transition: node 1, Requested for the absent target `(5, 5)`, receives no
config response and stays Requested (is not moved to Unstarted); node 1,
Unstarted and declaring the absent `(5, 5)` in its block request, receives no
block response and stays Unstarted (is not moved to Started). -/
theorem missing_firmware_state_does_not_advance :
    (staleRequested.handle_firmware_config_request 1 exampleConfigPayload).1 = none ∧
    (staleRequested.handle_firmware_config_request 1
      exampleConfigPayload).2.requested_nodes 1 = some (5, 5) ∧
    (staleRequested.handle_firmware_config_request 1
      exampleConfigPayload).2.unstarted_nodes 1 = none ∧
    (staleUnstarted.handle_firmware_request 1 exampleBlockPayloadMissing).1 = none ∧
    (staleUnstarted.handle_firmware_request 1
      exampleBlockPayloadMissing).2.unstarted_nodes 1 = some (5, 5) ∧
    (staleUnstarted.handle_firmware_request 1
      exampleBlockPayloadMissing).2.started_nodes 1 = none := by
  refine ⟨?_, ?_, ?_, ?_, ?_, ?_⟩ <;> decide

/-- **C3 (amended).** When the pending (config) or declared (block) target
firmware is absent from the catalog at handling time, the handler sends no
response and leaves the registry state entirely unchanged — the node does
not advance past Requested respectively Unstarted. -/
theorem missing_firmware_no_response_state_unchanged (s : OtaState) (n : Nat) :
    (∀ p ws fwId, fw_hex_to_int p 5 = some ws →
      pyOr (s.requested_nodes n) (s.unstarted_nodes n) = some fwId →
      s.firmware_store fwId = none →
      s.handle_firmware_config_request n p = (none, s)) ∧
    (∀ q t v b rest fwId, fw_hex_to_int q 3 = some (t :: v :: b :: rest) →
      pyOr (s.unstarted_nodes n) (s.started_nodes n) = some fwId →
      s.firmware_store (t, v) = none →
      s.handle_firmware_request n q = (none, s)) :=
  ⟨fun _ _ _ hws hid hst => config_request_eq_missing hws hid hst,
   fun _ _ _ _ _ _ hws hid hst => block_request_eq_missing hws hid hst⟩

/-- **C3 witness.** The amended theorem applied to the two concrete stale
states. -/
theorem missing_firmware_no_response_state_unchanged_witness :
    staleRequested.handle_firmware_config_request 1 exampleConfigPayload =
      (none, staleRequested) ∧
    staleUnstarted.handle_firmware_request 1 exampleBlockPayloadMissing =
      (none, staleUnstarted) :=
  ⟨(missing_firmware_no_response_state_unchanged staleRequested 1).1
      exampleConfigPayload [1, 1, 10, 0, 2] (5, 5) (by decide) (by decide) rfl,
   (missing_firmware_no_response_state_unchanged staleUnstarted 1).2
      exampleBlockPayloadMissing 5 5 0 [] (5, 5) (by decide) (by decide) rfl⟩

/-- **C4 (counterexample).** The claim says the decoded payload is everything
after the 5th `;` delimiter, so an embedded `;` survives.  In the code the
payload is `parts[5]`, the sixth field only: encoding payload `"a;b"` yields
the line `"1;2;3;0;24;a;b"`, which decodes back with payload `"a"`, not
`"a;b"` — decode∘encode is not the identity on payloads containing `;`. -/
theorem payload_embedded_semicolon_lost :
    encodeLine 1 2 3 0 24 ("a;b".toList) = "1;2;3;0;24;a;b".toList ∧
    decodeLine ("1;2;3;0;24;a;b".toList) = some (1, 2, 3, 0, 24, "a".toList) ∧
    ("a".toList : List Char) ≠ "a;b".toList := by
  refine ⟨by simp [encodeLine, printInt, printNat], by rfl, by decide⟩

/-- **C4 (amended).** Decoding takes the sixth `;`-separated field as the
payload, so for every 6-field message whose payload contains no `;`,
decode∘encode is the identity on the 5 integer fields and reproduces the
payload exactly; a payload containing `;` is truncated at its first `;`. -/
theorem decode_encode_identity_no_semi (n c m a t : Int) {p : List Char}
    (hp : ';' ∉ p) :
    decodeLine (encodeLine n c m a t p) = some (n, c, m, a, t, p) :=
  decodeLine_encodeLine n c m a t hp

/-- **C4 witness.** The amended round-trip at a concrete message. -/
theorem decode_encode_identity_no_semi_witness :
    decodeLine (encodeLine 5 1 1 0 2 ("37".toList)) =
      some (5, 1, 1, 0, 2, "37".toList) :=
  decode_encode_identity_no_semi 5 1 1 0 2 (by decide)

/-- **C5 (counterexample).** The claim says that after a successful
`request_update`, a config request **with any payload** moves the node from
Requested to Unstarted.  A payload that does not decode as 5 words (here
`"zz"`) makes the handler return before any state change: node 7 receives no
response and is still Requested, not Unstarted. -/
theorem invalid_payload_leaves_node_requested :
    ((exampleStore.request_update 7 3 2).2.handle_firmware_config_request 7
      ['z', 'z']).1 = none ∧
    ((exampleStore.request_update 7 3 2).2.handle_firmware_config_request 7
      ['z', 'z']).2.requested_nodes 7 = some (3, 2) ∧
    ((exampleStore.request_update 7 3 2).2.handle_firmware_config_request 7
      ['z', 'z']).2.unstarted_nodes 7 = none := by
  refine ⟨?_, ?_, ?_⟩ <;> decide

/-- **C5 (amended).** After a successful `request_update(node, t, v)` with
`(t, v)` in the catalog, a config request from that node whose payload
decodes as 5 little-endian 16-bit words moves the node from Requested to
Unstarted and never leaves it in Requested. -/
theorem valid_config_request_moves_requested_to_unstarted
    (s : OtaState) (node t v : Nat) (fware : Fware) (payload : List Char)
    (ws : List Nat) (hst : s.firmware_store (t, v) = some fware)
    (hpl : fw_hex_to_int payload 5 = some ws) :
    (s.request_update node t v).1 = true ∧
    ((s.request_update node t v).2.handle_firmware_config_request node
      payload).2.requested_nodes node = none ∧
    ((s.request_update node t v).2.handle_firmware_config_request node
      payload).2.unstarted_nodes node = some (t, v) := by
  have hrq : s.request_update node t v = (true, afterRequest s node t v) :=
    request_update_eq_success hst
  have hid : pyOr ((afterRequest s node t v).requested_nodes node)
      ((afterRequest s node t v).unstarted_nodes node) = some (t, v) := by
    simp [afterRequest, mapInsert, pyOr]
  have hst1 : (afterRequest s node t v).firmware_store (t, v) = some fware := hst
  refine ⟨by rw [hrq], ?_, ?_⟩ <;>
  · rw [hrq, config_request_eq_success hpl hid hst1]
    simp [afterRequest, mapRemove, mapInsert]

/-- **C5 witness.** The amended theorem at the concrete example store. -/
theorem valid_config_request_moves_requested_to_unstarted_witness :
    (exampleStore.request_update 7 3 2).1 = true ∧
    ((exampleStore.request_update 7 3 2).2.handle_firmware_config_request 7
      exampleConfigPayload).2.requested_nodes 7 = none ∧
    ((exampleStore.request_update 7 3 2).2.handle_firmware_config_request 7
      exampleConfigPayload).2.unstarted_nodes 7 = some (3, 2) :=
  valid_config_request_moves_requested_to_unstarted exampleStore 7 3 2
    (prepare_firmware exampleImage) exampleConfigPayload [1, 1, 10, 0, 2]
    rfl rfl

/-- **C6.** From any state with an empty registry (the three phase dicts
empty, the catalog arbitrary), every sequence of `request_update`,
`handle_firmware_config_request` and `handle_firmware_request` calls
preserves the invariant that each node appears in at most one of the three
phase dicts — i.e. each node is in exactly one of no-entry, Requested,
Unstarted, Started at any instant. -/
theorem node_in_at_most_one_phase (s0 : OtaState) (h0 : registryEmpty s0)
    (steps : List OtaStep) : phaseDisjoint (runOtaSteps s0 steps) := by
  have hd0 : phaseDisjoint s0 := by
    intro n
    rcases h0 n with ⟨h1, h2, h3⟩
    simp [h1, h2, h3]
  unfold runOtaSteps
  clear h0
  suffices h : ∀ s : OtaState, phaseDisjoint s →
      phaseDisjoint (List.foldl applyOtaStep s steps) from h s0 hd0
  induction steps with
  | nil => intro s hs; simpa using hs
  | cons st steps ih =>
    intro s hs
    simp only [List.foldl_cons]
    exact ih _ (phaseDisjoint_applyOtaStep hs st)

/-- **C6 witness.** The invariant after a concrete request-then-config
sequence from the example store. -/
theorem node_in_at_most_one_phase_witness :
    phaseDisjoint (runOtaSteps exampleStore
      [OtaStep.req 7 3 2, OtaStep.config 7 exampleConfigPayload]) :=
  node_in_at_most_one_phase exampleStore (fun _ => ⟨rfl, rfl, rfl⟩) _

/-- **C7.** For every ingested binary string, the prepared catalog entry has
`data` length a multiple of 128 (page padding), `blocks = len(data)/16`, and
`crc` equal to the CRC16-MODBUS of the padded data buffer. -/
theorem prepare_firmware_pads_blocks_crc (bin : List Nat) :
    (prepare_firmware bin).data.length % 128 = 0 ∧
    (prepare_firmware bin).blocks = (prepare_firmware bin).data.length / 16 ∧
    (prepare_firmware bin).crc = compute_crc16 (prepare_firmware bin).data := by
  refine ⟨?_, rfl, rfl⟩
  simp only [prepare_firmware, List.length_append, List.length_replicate]
  omega

/-- **C8.** The dedup policy of `process_gateway_message`: a second copy of a
non-blank line arriving within 1 second of the first is dropped by the dedup
check before decoding (outcome `droppedDup`); arriving more than 1 second
later it passes the dedup check and reaches the decoder, as does the first
copy when it differs from the previously remembered line; and the dedup
memory is one entry deep, so in a sequence A, B, A (with B a different
non-blank line) the second A always reaches the decoder, at any spacing. -/
theorem dedup_policy (st : GwState) (lineA lineB : List Char) (t0 t1 t2 : ℚ)
    (hA : pyStrip lineA ≠ []) :
    ((t1 - t0 ≤ 1) →
      (process_gateway_message (process_gateway_message st lineA t0).2 lineA
        t1).1 = GwOutcome.droppedDup) ∧
    ((t1 - t0 > 1) →
      (process_gateway_message (process_gateway_message st lineA t0).2 lineA
        t1).1.reachedDecode = true) ∧
    ((st.last_message ≠ pyStrip lineA) →
      (process_gateway_message st lineA t0).1.reachedDecode = true) ∧
    ((pyStrip lineB ≠ []) → (pyStrip lineB ≠ pyStrip lineA) →
      (process_gateway_message (process_gateway_message
        (process_gateway_message st lineA t0).2 lineB t1).2 lineA
        t2).1.reachedDecode = true) := by
  have hsnd := process_gateway_message_snd st t0 hA
  refine ⟨?_, ?_, ?_, ?_⟩
  · intro h
    rw [hsnd]
    exact process_gateway_message_dup _ _ hA rfl h
  · intro h
    rw [hsnd]
    exact process_gateway_message_not_dup _ _ hA (Or.inr h)
  · intro h
    exact process_gateway_message_not_dup _ _ hA (Or.inl fun hh => h hh.symm)
  · intro hB hBA
    rw [process_gateway_message_snd _ t1 hB]
    exact process_gateway_message_not_dup _ _ hA (Or.inl fun hh => hBA hh.symm)

/-- **C8 witness.** Scenario D: `"5;1;1;0;2;37"` repeated 0.2s later is
dropped as a duplicate; repeated 2s later it reaches the decoder. -/
theorem dedup_policy_witness :
    (process_gateway_message (process_gateway_message
      { last_message := [], last_time := 0 } ("5;1;1;0;2;37".toList) 0).2
      ("5;1;1;0;2;37".toList) (1 / 5)).1 = GwOutcome.droppedDup ∧
    (process_gateway_message (process_gateway_message
      { last_message := [], last_time := 0 } ("5;1;1;0;2;37".toList) 0).2
      ("5;1;1;0;2;37".toList) 2).1.reachedDecode = true :=
  ⟨(dedup_policy { last_message := [], last_time := 0 } ("5;1;1;0;2;37".toList)
      [] 0 (1 / 5) 0 (by decide)).1 (by norm_num),
   (dedup_policy { last_message := [], last_time := 0 } ("5;1;1;0;2;37".toList)
      [] 0 2 0 (by decide)).2.1 (by norm_num)⟩

/-- **C9.** For a node in phase Unstarted or Started (whatever firmware id
the registry stores for it), a block request whose payload decodes to
`(t, v, b)` with `(t, v)` in the catalog is answered from the node-declared
`(t, v)` — not from the registry's stored target — and the response payload
is the three words `(t, v, b)` followed by the hex of
`data[b*16 : b*16+16]`. -/
theorem block_request_uses_node_declared_id
    (s : OtaState) (node : Nat) (payload : List Char) (t v b : Nat)
    (rest : List Nat) (fwId : FwId) (fware : Fware)
    (hpl : fw_hex_to_int payload 3 = some (t :: v :: b :: rest))
    (hphase : pyOr (s.unstarted_nodes node) (s.started_nodes node) = some fwId)
    (hst : s.firmware_store (t, v) = some fware) :
    (s.handle_firmware_request node payload).1 =
      some (fw_int_to_hex [t, v, b] ++
        hexlify ((fware.data.drop (b * 16)).take 16)) := by
  rw [block_request_eq_success hpl hphase hst]
  rfl

/-- **C9 witness.** Node 1 is Unstarted with stored target `(5, 5)` while its
block request declares `(3, 2)`; the response serves firmware `(3, 2)`. -/
theorem block_request_uses_node_declared_id_witness :
    (exampleUnstartedMismatch.handle_firmware_request 1 exampleBlockPayload).1 =
      some (fw_int_to_hex [3, 2, 0] ++
        hexlify (((prepare_firmware exampleImage).data.drop (0 * 16)).take 16)) :=
  block_request_uses_node_declared_id exampleUnstartedMismatch 1
    exampleBlockPayload 3 2 0 [] (5, 5) (prepare_firmware exampleImage)
    rfl rfl rfl

/-- **C10.** `delete_firmware(t, v)` modifies at most the catalog entry for
`(t, v)`: the three phase dicts (and hence every node's phase and stored
target) are exactly what they were before, and every other catalog key is
unchanged — including when some node's target is the deleted firmware. -/
theorem delete_firmware_frame (s : OtaState) (t v : Nat) :
    (s.delete_firmware t v).requested_nodes = s.requested_nodes ∧
    (s.delete_firmware t v).unstarted_nodes = s.unstarted_nodes ∧
    (s.delete_firmware t v).started_nodes = s.started_nodes ∧
    (∀ k : FwId, k ≠ (t, v) →
      (s.delete_firmware t v).firmware_store k = s.firmware_store k) := by
  unfold OtaState.delete_firmware
  split
  · exact ⟨rfl, rfl, rfl, fun k hk => by simp [mapRemove, hk]⟩
  · exact ⟨rfl, rfl, rfl, fun _ _ => rfl⟩

/-- **C10 witness.** Deleting `(3, 2)` from the stale state leaves node 1's
Requested entry and an unrelated catalog key untouched. -/
theorem delete_firmware_frame_witness :
    (staleRequested.delete_firmware 3 2).requested_nodes =
      staleRequested.requested_nodes ∧
    (staleRequested.delete_firmware 3 2).firmware_store (9, 9) =
      staleRequested.firmware_store (9, 9) :=
  ⟨(delete_firmware_frame staleRequested 3 2).1,
   (delete_firmware_frame staleRequested 3 2).2.2.2 (9, 9) (by decide)⟩

end MySensorsTracker
